import Mathlib

/-!
Verification of the date-codec, record-schema, dispatch and auth-guard core of
the `github2` library (`github2/core.py`), against its natural-language
specification.

The Python code is shallowly embedded: strings are `String` (a wrapper around
`List Char` in this Lean version), `datetime.datetime` values are the record
`DateTime` below, fallible code returns `Option`/`Except`, and Python objects
appearing as wire data are the inductive `Value`.

`time.strptime` is modelled at exactly the three format strings the source
passes to it ("%Y/%m/%d %H:%M:%S", "%Y-%m-%dT%H:%M:%S" and
"%Y-%m-%dT%H:%M:%SZ"), following CPython `_strptime`: `%Y` matches exactly
four digits, the other fields match two digits or one (two preferred, with
regex backtracking), literal separators match themselves, the whole string
must be consumed, and the result is range- and calendar-checked as done by
`datetime.date`/`datetime.datetime` construction (which the source applies to
the parsed tuple).  CPython compiles the pattern case-insensitively, which can
only matter for the literal `T`/`Z`; no statement below exercises that corner.
`datetime.strftime` is modelled as zero-padded rendering; for years below 1000
the zero padding of `%Y` is platform dependent in CPython, so every theorem
about formatting constrains the year to at least 1000 (a four-digit year with
a non-zero leading digit, the spec's bit-exact `YYYY`).
-/

namespace Github2

/-- Python `datetime.datetime` restricted to the six fields the source ever
produces (`time.strptime(...)[: 6]`); microseconds are always zero. -/
structure DateTime where
  year : Nat
  month : Nat
  day : Nat
  hour : Nat
  minute : Nat
  second : Nat
deriving DecidableEq, Repr

/-- Gregorian leap year, as used by `datetime.date`. -/
def isLeap (y : Nat) : Bool :=
  y % 4 = 0 && (y % 100 ≠ 0 || y % 400 = 0)

/-- Number of days in a month, as used by `datetime.date`. -/
def daysInMonth (y mo : Nat) : Nat :=
  if mo = 2 then (if isLeap y then 29 else 28)
  else if mo = 4 ∨ mo = 6 ∨ mo = 9 ∨ mo = 11 then 30
  else 31

/-- The field ranges accepted by `datetime.datetime(y, mo, d, h, mi, s)`. -/
def DateTime.Valid (dt : DateTime) : Prop :=
  1 ≤ dt.year ∧ dt.year ≤ 9999 ∧ 1 ≤ dt.month ∧ dt.month ≤ 12 ∧
  1 ≤ dt.day ∧ dt.day ≤ daysInMonth dt.year dt.month ∧
  dt.hour ≤ 23 ∧ dt.minute ≤ 59 ∧ dt.second ≤ 59

instance (dt : DateTime) : Decidable dt.Valid := by
  unfold DateTime.Valid; infer_instance

/-- The decimal digit character for `n < 10`. -/
def digitChar (n : Nat) : Char := Char.ofNat (48 + n)

/-- Numeric value of a decimal digit character. -/
def digitVal (c : Char) : Nat := c.toNat - 48

/-- Two-digit zero-padded rendering (strftime `%m`, `%d`, `%H`, `%M`, `%S`). -/
def pad2 (n : Nat) : List Char := [digitChar (n / 10), digitChar (n % 10)]

/-- Four-digit zero-padded rendering (strftime `%Y`; see the header comment
about years below 1000). -/
def pad4 (n : Nat) : List Char :=
  [digitChar (n / 1000), digitChar (n / 100 % 10), digitChar (n / 10 % 10), digitChar (n % 10)]

/-- The characters Python `str.split()`/`str.strip()` treat as whitespace. -/
def isPySpace (c : Char) : Bool :=
  c = ' ' || c = '\t' || c = '\n' || c = '\r' || c = Char.ofNat 11 || c = Char.ofNat 12

/-- Python `str.strip()` (no argument): drop whitespace from both ends. -/
def pyStrip (l : List Char) : List Char :=
  ((l.dropWhile isPySpace).reverse.dropWhile isPySpace).reverse

/-- Accumulator worker for `pySplit`; the accumulator holds the current word
reversed. -/
def pySplitAux : List Char → List Char → List (List Char)
  | [], acc => if acc.isEmpty then [] else [acc.reverse]
  | c :: cs, acc =>
    if isPySpace c then
      if acc.isEmpty then pySplitAux cs [] else acc.reverse :: pySplitAux cs []
    else pySplitAux cs (c :: acc)

/-- Python `str.split()` (no argument): split on whitespace runs, no empty
words. -/
def pySplit (l : List Char) : List (List Char) := pySplitAux l []

/-- Python `" ".join(words)`. -/
def pyJoinSpace : List (List Char) → List Char
  | [] => []
  | [w] => w
  | w :: ws => w ++ (' ' :: pyJoinSpace ws)

/-- In CPython `_strptime`, `%Y` matches exactly four digits. -/
def read4Then (k : Nat → List Char → Option α) : List Char → Option α
  | a :: b :: c :: d :: rest =>
    if a.isDigit && b.isDigit && c.isDigit && d.isDigit then
      k (1000 * digitVal a + 100 * digitVal b + 10 * digitVal c + digitVal d) rest
    else Option.none
  | _ => Option.none

/-- A two-digit-or-one-digit numeric field of `_strptime` (two digits
preferred, the one-digit alternative tried when the rest of the pattern fails
after the two-digit read, exactly like regex alternation backtracking).
`ok2`/`ok1` are the value constraints of the two branches of the regex. -/
def read2or1 (ok2 ok1 : Nat → Bool) (k : Nat → List Char → Option α) : List Char → Option α
  | a :: b :: rest =>
    (if a.isDigit && b.isDigit && ok2 (10 * digitVal a + digitVal b) then
       k (10 * digitVal a + digitVal b) rest
     else Option.none).orElse
      (fun _ =>
        if a.isDigit && ok1 (digitVal a) then k (digitVal a) (b :: rest) else Option.none)
  | [a] => if a.isDigit && ok1 (digitVal a) then k (digitVal a) [] else Option.none
  | [] => Option.none

/-- A literal separator character of the format string. -/
def readSep (c : Char) (k : List Char → Option α) : List Char → Option α
  | x :: rest => if x = c then k rest else Option.none
  | [] => Option.none

/-- `%m` two-digit branch: `1[0-2]|0[1-9]`. -/
def okM2 (v : Nat) : Bool := 1 ≤ v && v ≤ 12
/-- `%m` one-digit branch: `[1-9]`. -/
def okM1 (v : Nat) : Bool := 1 ≤ v && v ≤ 9
/-- `%d` two-digit branch: `3[01]|[12]\d|0[1-9]`. -/
def okD2 (v : Nat) : Bool := 1 ≤ v && v ≤ 31
/-- `%d` one-digit branch: `[1-9]`. -/
def okD1 (v : Nat) : Bool := 1 ≤ v && v ≤ 9
/-- `%H` two-digit branch: `2[0-3]|[0-1]\d`. -/
def okH2 (v : Nat) : Bool := v ≤ 23
/-- `%H` one-digit branch: `\d`. -/
def okH1 (v : Nat) : Bool := v ≤ 9
/-- `%M` two-digit branch: `[0-5]\d`. -/
def okMin2 (v : Nat) : Bool := v ≤ 59
/-- `%M` one-digit branch: `\d`. -/
def okMin1 (v : Nat) : Bool := v ≤ 9
/-- `%S` two-digit branch: `6[0-1]|[0-5]\d` (leap seconds pass the regex and
are rejected later by the `datetime` constructor). -/
def okS2 (v : Nat) : Bool := v ≤ 61
/-- `%S` one-digit branch: `\d`. -/
def okS1 (v : Nat) : Bool := v ≤ 9

/-- The shared shape of the three format strings the source uses:
year `s1` month `s1` day `s2` hour `:` minute `:` second, followed by the
literal tail `tl` (empty, or `Z` for the user fallback format), consuming the
whole input. -/
def strptimeFields (s1 s2 : Char) (tl : List Char) (l : List Char) :
    Option (Nat × Nat × Nat × Nat × Nat × Nat) :=
  read4Then (fun y r1 =>
    readSep s1 (read2or1 okM2 okM1 (fun mo r2 =>
      readSep s1 (read2or1 okD2 okD1 (fun d r3 =>
        readSep s2 (read2or1 okH2 okH1 (fun h r4 =>
          readSep ':' (read2or1 okMin2 okMin1 (fun mi r5 =>
            readSep ':' (read2or1 okS2 okS1 (fun s r6 =>
              if r6 = tl then some (y, mo, d, h, mi, s) else Option.none)) r5)) r4)) r3)) r2)) r1) l

/-- Validation performed on the parsed tuple: `time.strptime` builds a
`datetime.date(y, mo, d)` (calendar check) and the source then builds
`datetime(*tuple[: 6])` (range check, seconds at most 59). -/
def mkDatetime (y mo d h mi s : Nat) : Option DateTime :=
  if (DateTime.mk y mo d h mi s).Valid then some ⟨y, mo, d, h, mi, s⟩ else Option.none

def GITHUB_TIMEZONE : String := "-0700"
def GITHUB_DATE_FORMAT : String := "%Y/%m/%d %H:%M:%S"
def COMMIT_DATE_FORMAT : String := "%Y-%m-%dT%H:%M:%S"
def COMMIT_TIMEZONE : String := "-07:00"

/-- `core.strptime(string, format)`, modelled at the three format strings the
source passes (any other format returns no result; the source never does
that). -/
def strptime (string : String) (format : String) : Option DateTime :=
  (if format = GITHUB_DATE_FORMAT then strptimeFields '/' ' ' [] string.toList
   else if format = COMMIT_DATE_FORMAT then strptimeFields '-' 'T' [] string.toList
   else if format = "%Y-%m-%dT%H:%M:%SZ" then strptimeFields '-' 'T' ['Z'] string.toList
   else Option.none).bind
    (fun t => mkDatetime t.1 t.2.1 t.2.2.1 t.2.2.2.1 t.2.2.2.2.1 t.2.2.2.2.2)

/-- Characters of the `%Y/%m/%d` part of a github date. -/
def ghDayChars (dt : DateTime) : List Char :=
  pad4 dt.year ++ ('/' :: (pad2 dt.month ++ ('/' :: pad2 dt.day)))

/-- Characters of the `%H:%M:%S` part of a date. -/
def timeChars (dt : DateTime) : List Char :=
  pad2 dt.hour ++ (':' :: (pad2 dt.minute ++ (':' :: pad2 dt.second)))

/-- Characters of `strftime("%Y/%m/%d %H:%M:%S")`. -/
def ghDateChars (dt : DateTime) : List Char :=
  ghDayChars dt ++ (' ' :: timeChars dt)

/-- Characters of `strftime("%Y-%m-%dT%H:%M:%S")` (also `datetime.isoformat()`
for microsecond-free datetimes). -/
def commitDateChars (dt : DateTime) : List Char :=
  pad4 dt.year ++ ('-' :: (pad2 dt.month ++ ('-' :: (pad2 dt.day ++ ('T' :: timeChars dt)))))

/-- `datetime.strftime`, modelled at the two format strings the source uses. -/
def strftime (datetime_ : DateTime) (format : String) : String :=
  if format = GITHUB_DATE_FORMAT then ⟨ghDateChars datetime_⟩
  else if format = COMMIT_DATE_FORMAT then ⟨commitDateChars datetime_⟩
  else ""

/-- `datetime.isoformat()`: with zero microseconds this is the
`%Y-%m-%dT%H:%M:%S` rendering. -/
def DateTime.isoformat (datetime_ : DateTime) : String := ⟨commitDateChars datetime_⟩

/-- `core.ghdate_to_datetime`. -/
def ghdate_to_datetime (github_date : String) : Option DateTime :=
  strptime ⟨pyJoinSpace ((pySplit (pyStrip github_date.toList)).take 2)⟩ GITHUB_DATE_FORMAT

/-- `core.datetime_to_ghdate`. -/
def datetime_to_ghdate (datetime_ : DateTime) : String :=
  strftime datetime_ GITHUB_DATE_FORMAT ++ " " ++ GITHUB_TIMEZONE

/-- `core.commitdate_to_datetime` (`commit_date[:-6]` then the commit
pattern). -/
def commitdate_to_datetime (commit_date : String) : Option DateTime :=
  strptime ⟨commit_date.toList.take (commit_date.toList.length - 6)⟩ COMMIT_DATE_FORMAT

/-- `core.datetime_to_commitdate`. -/
def datetime_to_commitdate (datetime_ : DateTime) : String :=
  strftime datetime_ COMMIT_DATE_FORMAT ++ COMMIT_TIMEZONE

/-- `core.userdate_to_datetime`: github parsing first, on failure the strict
ISO-like pattern with a literal trailing `Z`. -/
def userdate_to_datetime (user_date : String) : Option DateTime :=
  match ghdate_to_datetime user_date with
  | some dt => some dt
  | Option.none => strptime user_date "%Y-%m-%dT%H:%M:%SZ"

/-- `core.isodate_to_datetime` (`iso_date[:-1]` then the commit pattern). -/
def isodate_to_datetime (iso_date : String) : Option DateTime :=
  strptime ⟨iso_date.toList.take (iso_date.toList.length - 1)⟩ COMMIT_DATE_FORMAT

/-- `core.datetime_to_isodate`. -/
def datetime_to_isodate (datetime_ : DateTime) : String :=
  datetime_.isoformat ++ "Z"

/-! ### Wire values, transport, dispatcher, records and guards -/

/-- Python objects appearing as wire data or record field values: `None`,
strings, numbers, datetimes, dicts and lists. -/
inductive Value where
  | none
  | str (s : String)
  | int (n : Int)
  | dt (d : DateTime)
  | dict (entries : List (String × Value))
  | arr (elems : List Value)

/-- Python truthiness of a `Value` (`bool(v)`). -/
def pyTruthyV : Value → Bool
  | Value.none => false
  | Value.str s => if s = "" then false else true
  | Value.int n => if n = 0 then false else true
  | Value.dt _ => true
  | Value.dict es => !es.isEmpty
  | Value.arr xs => !xs.isEmpty

/-- `isinstance(v, datetime)`. -/
def Value.isDatetime : Value → Bool
  | Value.dt _ => true
  | _ => false

/-- A token attribute of the session object: either `None` or a string. -/
inductive Token where
  | none
  | str (s : String)
deriving DecidableEq

/-- Python truthiness of a token attribute (`bool(token)`). -/
def pyTruthy : Token → Bool
  | Token.none => false
  | Token.str s => if s = "" then false else true

/-- The transport/session collaborator (`self.request` in the source): the
four wire operations plus the two token attributes read by the auth guard.
The operations are abstract functions from the call's arguments to the raw
response. -/
structure Request where
  access_token : Token
  api_token : Token
  post : String → String → List Value → List (String × Value) → Value
  put : String → String → List Value → List (String × Value) → Value
  delete : String → String → List Value → List (String × Value) → Value
  get : String → String → List Value → Value

/-- A command group: the held transport plus the per-group resource-path
domain (`self.domain`). -/
structure GithubCommand where
  request : Request
  domain : String

/-- The keyword arguments of `make_request` that the source reads. -/
structure Kwargs where
  filter : Option String
  post_data : Option (List (String × Value))
  method : Option String

/-- Errors this layer can surface from result shaping. -/
inductive PyErr where
  | keyError (key : String)
  | typeError
deriving DecidableEq

/-- First-match association-list lookup (Python dict lookup; dict keys are
unique, so first match is the match). -/
def lookup (key : String) : List (String × α) → Option α
  | [] => Option.none
  | (k, v) :: rest => if k = key then some v else lookup key rest

/-- Python `obj[key]`: dict lookup raising `KeyError` when absent,
`TypeError` when the object is not a dict. -/
def getitem (v : Value) (key : String) : Except PyErr Value :=
  match v with
  | Value.dict es =>
    match lookup key es with
    | some x => Except.ok x
    | Option.none => Except.error (PyErr.keyError key)
  | _ => Except.error PyErr.typeError

/-- Python `str.upper()` (ASCII, which covers the method strings). -/
def pyUpper (s : String) : String := ⟨s.toList.map Char.toUpper⟩

/-- `GithubCommand.make_request`: verb selection, transport call and result
shaping.  `kwargs.get("post_data") or {}` normalises a missing or falsy
post-data mapping to the empty one; `if filter:` is a truthiness test, so
both a missing filter and the empty-string filter return the raw response. -/
def GithubCommand.make_request (self : GithubCommand) (command : String) (args : List Value)
    (kwargs : Kwargs) : Except PyErr Value :=
  let filter := kwargs.filter
  let post_data := kwargs.post_data.getD []
  let method := kwargs.method.getD "GET"
  let response :=
    if (pyUpper method = "POST" ∨ pyUpper method = "GET") ∧ post_data.isEmpty = false then
      self.request.post self.domain command args post_data
    else if pyUpper method = "PUT" then
      self.request.put self.domain command args post_data
    else if pyUpper method = "DELETE" then
      self.request.delete self.domain command args post_data
    else
      self.request.get self.domain command args
  match filter with
  | some f => if f = "" then Except.ok response else getitem response f
  | Option.none => Except.ok response

/-- Python `repr` of an identifier-like string (`"%r" % name`). -/
def pyRepr (s : String) : String := "\x27" ++ s ++ "\x27"

/-- A named operation wrapped by the auth guard (`f` with its `__name__`). -/
structure Operation where
  name : String
  fn : GithubCommand → List Value → Value

/-- `core.requires_auth`: raise `AuthError` naming the operation when neither
token attribute of the held session is truthy, otherwise delegate to the
wrapped operation. -/
def requires_auth (f : Operation) (self : GithubCommand) (args : List Value) :
    Except String Value :=
  if pyTruthy self.request.access_token = false ∧ pyTruthy self.request.api_token = false then
    Except.error (pyRepr f.name ++ " requires an authenticated session")
  else Except.ok (f.fn self args)

/-- An attribute descriptor: the generic `Attribute` (identity conversions)
or a `DateAttribute` carrying its format name. -/
inductive Attr where
  | Attribute (help : String)
  | DateAttribute (help : String) (format : String)

/-- `DateAttribute.converter_for_format`: the parse and format functions of a
format name (`None` models the `KeyError` of an unknown name). -/
def converter_for_format (format : String) :
    Option ((String → Option DateTime) × (DateTime → String)) :=
  if format = "github" then some (ghdate_to_datetime, datetime_to_ghdate)
  else if format = "commit" then some (commitdate_to_datetime, datetime_to_commitdate)
  else if format = "user" then some (userdate_to_datetime, datetime_to_ghdate)
  else if format = "iso" then some (isodate_to_datetime, datetime_to_isodate)
  else Option.none

/-- `to_python`: the identity for the generic descriptor; for a date
descriptor, parse only a present (truthy) value that is not already a
datetime.  `Option.none` models an exception (unknown format name, a
non-string argument to the parser, or a parse failure). -/
def Attr.to_python : Attr → Value → Option Value
  | Attr.Attribute _, v => some v
  | Attr.DateAttribute _ fmt, v =>
    if pyTruthyV v = true ∧ v.isDatetime = false then
      match converter_for_format fmt with
      | some conv =>
        match v with
        | Value.str s => (conv.1 s).map Value.dt
        | _ => Option.none
      | Option.none => Option.none
    else some v

/-- `from_python`: the identity for the generic descriptor; for a date
descriptor, format only a present value that is a datetime. -/
def Attr.from_python : Attr → Value → Option Value
  | Attr.Attribute _, v => some v
  | Attr.DateAttribute _ fmt, v =>
    if pyTruthyV v = true ∧ v.isDatetime = true then
      match converter_for_format fmt with
      | some conv =>
        match v with
        | Value.dt d => some (Value.str (conv.2 d))
        | _ => Option.none
      | Option.none => Option.none
    else some v

/-- `setattr(self, name, v)` on the instance dict: replace the binding in
place or append a new one. -/
def setattr (rec : List (String × Value)) (name : String) (v : Value) :
    List (String × Value) :=
  match rec with
  | [] => [(name, v)]
  | (k, x) :: rest => if k = name then (k, v) :: rest else (k, x) :: setattr rest name v

/-- The synthesised `__init__` of a record type: fold over the keyword
arguments, converting values of schema-declared fields with the descriptor's
`to_python` and storing undeclared fields verbatim.  The record is the
instance `__dict__` (instances start empty; class-level defaults are not in
`vars(self)`).  `meta` is the `_meta` schema collected at type-definition
time. -/
def constructor (meta : List (String × Attr)) :
    List (String × Value) → List (String × Value) → Option (List (String × Value))
  | [], rec => some rec
  | (name, val) :: rest, rec =>
    match lookup name meta with
    | some attr =>
      match attr.to_python val with
      | some v => constructor meta rest (setattr rec name v)
      | Option.none => Option.none
    | Option.none => constructor meta rest (setattr rec name val)

/-- The synthesised `__iter__` of a record type: the entries of the instance
dict whose value `is not None`. -/
def iterate (rec : List (String × Value)) : List (String × Value) :=
  rec.filter (fun e => match e.2 with | Value.none => false | _ => true)

/-- A transport whose four operations record the call they received as a
tagged dict, for observing which wire call the dispatcher issues. -/
def tagCall (verb : String) (domain command : String) (args : List Value)
    (fields : List (String × Value)) : Value :=
  Value.dict [("verb", Value.str verb), ("domain", Value.str domain),
    ("command", Value.str command), ("args", Value.arr args), ("fields", Value.dict fields)]

/-- A recording transport with no tokens set. -/
def recordingRequest : Request :=
  ⟨Token.none, Token.none, tagCall "POST", tagCall "PUT", tagCall "DELETE",
    fun d c a => tagCall "GET" d c a []⟩

/-- A transport returning a fixed response on every operation. -/
def constRequest (v : Value) : Request :=
  ⟨Token.none, Token.none, fun _ _ _ _ => v, fun _ _ _ _ => v, fun _ _ _ _ => v,
    fun _ _ _ => v⟩

/-- An inert transport with the given token attributes, for exercising the
auth guard. -/
def authRequest (a b : Token) : Request :=
  ⟨a, b, fun _ _ _ _ => Value.none, fun _ _ _ _ => Value.none, fun _ _ _ _ => Value.none,
    fun _ _ _ => Value.none⟩

/-! ### Arithmetic and character helper lemmas -/

theorem isDigit_digitChar {n : Nat} (h : n < 10) : (digitChar n).isDigit = true := by
  interval_cases n <;> decide

theorem digitVal_digitChar {n : Nat} (h : n < 10) : digitVal (digitChar n) = n := by
  interval_cases n <;> decide

theorem isPySpace_digitChar {n : Nat} (h : n < 10) : isPySpace (digitChar n) = false := by
  interval_cases n <;> decide

theorem isPySpace_of_isDigit {c : Char} (h : c.isDigit = true) : isPySpace c = false := by
  simp only [isPySpace, Bool.or_eq_false_iff, decide_eq_false_iff_not]
  refine ⟨⟨⟨⟨⟨?_, ?_⟩, ?_⟩, ?_⟩, ?_⟩, ?_⟩ <;> rintro rfl <;> simp [Char.isDigit] at h

theorem pad2_nonspace {n : Nat} (hn : n ≤ 99) : ∀ c ∈ pad2 n, isPySpace c = false := by
  intro c hc
  simp only [pad2, List.mem_cons, List.not_mem_nil, or_false] at hc
  rcases hc with rfl | rfl
  · exact isPySpace_digitChar (by omega)
  · exact isPySpace_digitChar (by omega)

theorem pad4_nonspace {n : Nat} (hn : n ≤ 9999) : ∀ c ∈ pad4 n, isPySpace c = false := by
  intro c hc
  simp only [pad4, List.mem_cons, List.not_mem_nil, or_false] at hc
  rcases hc with rfl | rfl | rfl | rfl <;> exact isPySpace_digitChar (by omega)

/-! ### Parser-of-rendering lemmas -/

theorem read4Then_pad4 {α : Type} {k : Nat → List Char → Option α} {y : Nat} {rest : List Char}
    (hy : y ≤ 9999) :
    read4Then k (pad4 y ++ rest) = k y rest := by
  have h1 : y / 1000 < 10 := by omega
  have h2 : y / 100 % 10 < 10 := by omega
  have h3 : y / 10 % 10 < 10 := by omega
  have h4 : y % 10 < 10 := by omega
  simp only [pad4, List.cons_append, List.nil_append, read4Then,
    isDigit_digitChar h1, isDigit_digitChar h2, isDigit_digitChar h3, isDigit_digitChar h4,
    digitVal_digitChar h1, digitVal_digitChar h2, digitVal_digitChar h3, digitVal_digitChar h4,
    Bool.and_self, if_true]
  have : 1000 * (y / 1000) + 100 * (y / 100 % 10) + 10 * (y / 10 % 10) + y % 10 = y := by omega
  rw [this]

theorem read2or1_pad2 {α : Type} {ok2 ok1 : Nat → Bool} {k : Nat → List Char → Option α}
    {n : Nat} {rest : List Char} {x : α} (hn : n ≤ 99) (hok : ok2 n = true)
    (hk : k n rest = some x) :
    read2or1 ok2 ok1 k (pad2 n ++ rest) = some x := by
  have h1 : n / 10 < 10 := by omega
  have h2 : n % 10 < 10 := by omega
  simp only [pad2, List.cons_append, List.nil_append, read2or1,
    isDigit_digitChar h1, isDigit_digitChar h2, digitVal_digitChar h1, digitVal_digitChar h2,
    Bool.true_and]
  have hv : 10 * (n / 10) + n % 10 = n := by omega
  rw [hv, hok, if_pos rfl, hk]
  rfl

theorem readSep_cons {α : Type} {c : Char} {k : List Char → Option α} {rest : List Char} :
    readSep c k (c :: rest) = k rest := by
  simp [readSep]

theorem daysInMonth_le_31 (y mo : Nat) : daysInMonth y mo ≤ 31 := by
  unfold daysInMonth
  split
  · split <;> omega
  · split <;> omega

theorem strptimeFields_render (s1 s2 : Char) (tl : List Char) {y mo d h mi s : Nat}
    (hy : y ≤ 9999) (hmo1 : 1 ≤ mo) (hmo2 : mo ≤ 12) (hd1 : 1 ≤ d) (hd2 : d ≤ 31)
    (hh : h ≤ 23) (hmi : mi ≤ 59) (hs : s ≤ 61) :
    strptimeFields s1 s2 tl
      (pad4 y ++ (s1 :: (pad2 mo ++ (s1 :: (pad2 d ++ (s2 :: (pad2 h ++ (':' :: (pad2 mi ++
        (':' :: (pad2 s ++ tl))))))))))) = some (y, mo, d, h, mi, s) := by
  unfold strptimeFields
  rw [read4Then_pad4 hy]
  rw [readSep_cons]
  refine read2or1_pad2 (by omega) (by simp [okM2]; omega) ?_
  rw [readSep_cons]
  refine read2or1_pad2 (by omega) (by simp [okD2]; omega) ?_
  rw [readSep_cons]
  refine read2or1_pad2 (by omega) (by simp [okH2]; omega) ?_
  rw [readSep_cons]
  refine read2or1_pad2 (by omega) (by simp [okMin2]; omega) ?_
  rw [readSep_cons]
  refine read2or1_pad2 (by omega) (by simp [okS2]; omega) ?_
  rw [if_pos rfl]

/-! ### Split, strip and join lemmas -/

theorem pySplitAux_word {rest : List Char} {w acc : List Char}
    (hne : acc.isEmpty = false ∨ w ≠ []) (h : ∀ c ∈ w, isPySpace c = false) :
    pySplitAux (w ++ ' ' :: rest) acc = (acc.reverse ++ w) :: pySplitAux rest [] := by
  induction w generalizing acc with
  | nil =>
    have hacc : acc.isEmpty = false := by
      rcases hne with h' | h'
      · exact h'
      · simp at h'
    simp [pySplitAux, hacc, show isPySpace ' ' = true from by decide]
  | cons a w ih =>
    have ha : isPySpace a = false := h a (by simp)
    simp only [List.cons_append, pySplitAux, ha, Bool.false_eq_true, if_false, List.append_eq]
    rw [ih (Or.inl (by simp)) (fun c hc => h c (by simp [hc]))]
    simp

theorem pySplitAux_last {w acc : List Char} (hne : acc.isEmpty = false ∨ w ≠ [])
    (h : ∀ c ∈ w, isPySpace c = false) :
    pySplitAux w acc = [acc.reverse ++ w] := by
  induction w generalizing acc with
  | nil =>
    have hacc : acc.isEmpty = false := by
      rcases hne with h' | h'
      · exact h'
      · simp at h'
    simp [pySplitAux, hacc]
  | cons a w ih =>
    have ha : isPySpace a = false := h a (by simp)
    simp only [pySplitAux, ha, Bool.false_eq_true, if_false, List.append_eq]
    rw [ih (Or.inl (by simp)) (fun c hc => h c (by simp [hc]))]
    simp

theorem pySplit_word_append {w rest : List Char} (hw : w ≠ [])
    (h : ∀ c ∈ w, isPySpace c = false) :
    pySplit (w ++ ' ' :: rest) = w :: pySplit rest := by
  unfold pySplit
  rw [pySplitAux_word (Or.inr hw) h]
  simp

theorem pySplit_single {w : List Char} (hw : w ≠ []) (h : ∀ c ∈ w, isPySpace c = false) :
    pySplit w = [w] := by
  unfold pySplit
  rw [pySplitAux_last (Or.inr hw) h]
  simp

theorem exists_getLast?_of_ne_nil {α : Type} {l : List α} (h : l ≠ []) :
    ∃ z, l.getLast? = some z ∧ z ∈ l := by
  induction l with
  | nil => exact absurd rfl h
  | cons a t ih =>
    cases t with
    | nil => exact ⟨a, rfl, by simp⟩
    | cons b t' =>
      obtain ⟨z, hz, hm⟩ := ih (by simp)
      exact ⟨z, by rw [List.getLast?_cons_cons]; exact hz, by simp [hm]⟩

theorem exists_concat_of_getLast? {α : Type} {l : List α} {z : α} (h : l.getLast? = some z) :
    ∃ m, l = m ++ [z] := by
  induction l with
  | nil => simp at h
  | cons a t ih =>
    cases t with
    | nil =>
      simp only [List.getLast?_singleton, Option.some.injEq] at h
      exact ⟨[], by simp [h]⟩
    | cons b t' =>
      rw [List.getLast?_cons_cons] at h
      obtain ⟨m, hm⟩ := ih h
      exact ⟨a :: m, by simp [hm]⟩

theorem pyStrip_eq_self {l : List Char} {c z : Char} (hh : l.head? = some c)
    (hc : isPySpace c = false) (hl : l.getLast? = some z) (hz : isPySpace z = false) :
    pyStrip l = l := by
  obtain ⟨m, rfl⟩ := exists_concat_of_getLast? hl
  unfold pyStrip
  have h1 : (m ++ [z]).dropWhile isPySpace = m ++ [z] := by
    cases m with
    | nil => simp [List.dropWhile_cons, hz]
    | cons a t =>
      have hac : a = c := by
        simp only [List.cons_append, List.head?_cons, Option.some.injEq] at hh
        exact hh
      subst hac
      simp [List.dropWhile_cons, hc]
  rw [h1]
  have h2 : (m ++ [z]).reverse = z :: m.reverse := by simp
  rw [h2]
  have h3 : (z :: m.reverse).dropWhile isPySpace = z :: m.reverse := by
    simp [List.dropWhile_cons, hz]
  rw [h3]
  simp

theorem mkDatetime_valid {dt : DateTime} (hv : dt.Valid) :
    mkDatetime dt.year dt.month dt.day dt.hour dt.minute dt.second = some dt := by
  cases dt
  unfold mkDatetime
  rw [if_pos hv]

theorem toList_mk (l : List Char) : String.toList ⟨l⟩ = l := rfl

theorem ghDayChars_nonspace {dt : DateTime} (hv : dt.Valid) :
    ∀ c ∈ ghDayChars dt, isPySpace c = false := by
  obtain ⟨h1, h2, h3, h4, h5, h6, h7, h8, h9⟩ := hv
  have hd31 : dt.day ≤ 31 := le_trans h6 (daysInMonth_le_31 _ _)
  intro c hc
  simp only [ghDayChars, List.mem_append, List.mem_cons] at hc
  rcases hc with hc | rfl | hc | rfl | hc
  · exact pad4_nonspace h2 c hc
  · decide
  · refine pad2_nonspace ?_ c hc; omega
  · decide
  · refine pad2_nonspace ?_ c (by simpa using hc); omega

theorem timeChars_nonspace {dt : DateTime} (hv : dt.Valid) :
    ∀ c ∈ timeChars dt, isPySpace c = false := by
  obtain ⟨h1, h2, h3, h4, h5, h6, h7, h8, h9⟩ := hv
  intro c hc
  simp only [timeChars, List.mem_append, List.mem_cons] at hc
  rcases hc with hc | rfl | hc | rfl | hc
  · refine pad2_nonspace ?_ c hc; omega
  · decide
  · refine pad2_nonspace ?_ c hc; omega
  · decide
  · refine pad2_nonspace ?_ c (by simpa using hc); omega

theorem commitDateChars_nonspace {dt : DateTime} (hv : dt.Valid) :
    ∀ c ∈ commitDateChars dt, isPySpace c = false := by
  have ht := timeChars_nonspace hv
  obtain ⟨h1, h2, h3, h4, h5, h6, h7, h8, h9⟩ := hv
  have hd31 : dt.day ≤ 31 := le_trans h6 (daysInMonth_le_31 _ _)
  intro c hc
  simp only [commitDateChars, List.mem_append, List.mem_cons] at hc
  rcases hc with hc | rfl | hc | rfl | hc | rfl | hc
  · exact pad4_nonspace h2 c hc
  · decide
  · refine pad2_nonspace ?_ c hc; omega
  · decide
  · refine pad2_nonspace ?_ c hc; omega
  · decide
  · exact ht c hc

/-- The `strip`/`split`/`take 2`/`join` preprocessing of `ghdate_to_datetime`
recovers exactly the date-and-time part of a github-format text, for any
trailing whitespace-free offset token. -/
theorem gh_preprocess {dt : DateTime} (hv : dt.Valid) {off : List Char} (hoff : off ≠ [])
    (hns : ∀ c ∈ off, isPySpace c = false) :
    pyJoinSpace ((pySplit (pyStrip (ghDateChars dt ++ (' ' :: off)))).take 2) = ghDateChars dt := by
  have hyr : dt.year ≤ 9999 := hv.2.1
  obtain ⟨z, hz, hzm⟩ := exists_getLast?_of_ne_nil hoff
  have hstrip : pyStrip (ghDateChars dt ++ (' ' :: off)) = ghDateChars dt ++ (' ' :: off) := by
    refine pyStrip_eq_self (c := digitChar (dt.year / 1000)) (z := z) ?_ ?_ ?_ (hns z hzm)
    · simp [ghDateChars, ghDayChars, pad4]
    · exact isPySpace_digitChar (by omega)
    · rw [List.getLast?_append_cons]
      cases off with
      | nil => exact absurd rfl hoff
      | cons o off' => rw [List.getLast?_cons_cons]; exact hz
  rw [hstrip]
  have hassoc : ghDateChars dt ++ (' ' :: off) =
      ghDayChars dt ++ (' ' :: (timeChars dt ++ (' ' :: off))) := by
    simp [ghDateChars, List.append_assoc]
  rw [hassoc]
  rw [pySplit_word_append (by simp [ghDayChars, pad4]) (ghDayChars_nonspace hv)]
  rw [pySplit_word_append (by simp [timeChars, pad2]) (timeChars_nonspace hv)]
  rw [pySplit_single hoff hns]
  rfl

/-- Parsing the rendered `%Y/%m/%d %H:%M:%S` text with the github format
recovers the datetime. -/
theorem strptime_ghDateChars {dt : DateTime} (hv : dt.Valid) :
    strptime ⟨ghDateChars dt⟩ GITHUB_DATE_FORMAT = some dt := by
  obtain ⟨h1, h2, h3, h4, h5, h6, h7, h8, h9⟩ := hv
  unfold strptime
  rw [if_pos rfl]
  have hr : strptimeFields '/' ' ' [] (String.toList ⟨ghDateChars dt⟩) =
      some (dt.year, dt.month, dt.day, dt.hour, dt.minute, dt.second) := by
    have hd31 : dt.day ≤ 31 := le_trans h6 (daysInMonth_le_31 _ _)
    have hren := strptimeFields_render '/' ' ' [] h2 h3 h4 h5 hd31 h7 h8 (Nat.le_trans h9 (by omega))
    rw [toList_mk]
    simpa [ghDateChars, ghDayChars, timeChars, List.append_assoc] using hren
  rw [hr]
  exact mkDatetime_valid ⟨h1, h2, h3, h4, h5, h6, h7, h8, h9⟩

/-- Parsing the rendered `%Y-%m-%dT%H:%M:%S` text with the commit format
recovers the datetime. -/
theorem strptime_commitDateChars {dt : DateTime} (hv : dt.Valid) :
    strptime ⟨commitDateChars dt⟩ COMMIT_DATE_FORMAT = some dt := by
  obtain ⟨h1, h2, h3, h4, h5, h6, h7, h8, h9⟩ := hv
  unfold strptime
  rw [if_neg (by decide), if_pos rfl]
  have hr : strptimeFields '-' 'T' [] (String.toList ⟨commitDateChars dt⟩) =
      some (dt.year, dt.month, dt.day, dt.hour, dt.minute, dt.second) := by
    have hd31 : dt.day ≤ 31 := le_trans h6 (daysInMonth_le_31 _ _)
    have hren := strptimeFields_render '-' 'T' [] h2 h3 h4 h5 hd31 h7 h8 (Nat.le_trans h9 (by omega))
    rw [toList_mk]
    simpa [commitDateChars, timeChars, List.append_assoc] using hren
  rw [hr]
  exact mkDatetime_valid ⟨h1, h2, h3, h4, h5, h6, h7, h8, h9⟩

/-- Parsing the rendered `%Y-%m-%dT%H:%M:%S` text followed by `Z` with the
user fallback format recovers the datetime. -/
theorem strptime_isoZ_chars {dt : DateTime} (hv : dt.Valid) :
    strptime ⟨commitDateChars dt ++ ['Z']⟩ "%Y-%m-%dT%H:%M:%SZ" = some dt := by
  obtain ⟨h1, h2, h3, h4, h5, h6, h7, h8, h9⟩ := hv
  unfold strptime
  rw [if_neg (by decide), if_neg (by decide), if_pos rfl]
  have hr : strptimeFields '-' 'T' ['Z'] (String.toList ⟨commitDateChars dt ++ ['Z']⟩) =
      some (dt.year, dt.month, dt.day, dt.hour, dt.minute, dt.second) := by
    have hd31 : dt.day ≤ 31 := le_trans h6 (daysInMonth_le_31 _ _)
    have hren := strptimeFields_render '-' 'T' ['Z'] h2 h3 h4 h5 hd31 h7 h8 (Nat.le_trans h9 (by omega))
    rw [toList_mk]
    simpa [commitDateChars, timeChars, List.append_assoc] using hren
  rw [hr]
  exact mkDatetime_valid ⟨h1, h2, h3, h4, h5, h6, h7, h8, h9⟩

/-- A commit-style text (dashes after the year) never parses with the github
format: the separator after the four-digit year does not match. -/
theorem strptime_gh_on_commitChars {dt : DateTime} (hy : dt.year ≤ 9999) (l : List Char) :
    strptime ⟨commitDateChars dt ++ l⟩ GITHUB_DATE_FORMAT = Option.none := by
  unfold strptime
  rw [if_pos rfl]
  have hr : strptimeFields '/' ' ' [] (String.toList ⟨commitDateChars dt ++ l⟩) = Option.none := by
    rw [toList_mk]
    unfold strptimeFields
    have hshape : commitDateChars dt ++ l =
        pad4 dt.year ++ ('-' :: (pad2 dt.month ++ ('-' :: (pad2 dt.day ++
          ('T' :: timeChars dt))) ++ l)) := by
      simp [commitDateChars, List.append_assoc]
    rw [hshape, read4Then_pad4 hy]
    simp [readSep]
  rw [hr]
  rfl

theorem mk_append_mk (a b : List Char) : (⟨a⟩ : String) ++ ⟨b⟩ = ⟨a ++ b⟩ := rfl

theorem commitDateChars_length (dt : DateTime) : (commitDateChars dt).length = 19 := by
  simp [commitDateChars, timeChars, pad4, pad2]

/-- A github-format text (canonical date-and-time part, one space, any
non-empty whitespace-free trailing token) parses to its datetime; the
trailing token is discarded by the `split()[:2]` preprocessing. -/
theorem ghdate_to_datetime_render {dt : DateTime} (hv : dt.Valid) {off : List Char}
    (hoff : off ≠ []) (hns : ∀ c ∈ off, isPySpace c = false) :
    ghdate_to_datetime ⟨ghDateChars dt ++ (' ' :: off)⟩ = some dt := by
  unfold ghdate_to_datetime
  rw [toList_mk, gh_preprocess hv hoff hns]
  exact strptime_ghDateChars hv

/-- On a single whitespace-free word the `ghdate_to_datetime` preprocessing
is the identity. -/
theorem ghdate_to_datetime_single {w : List Char} (hw : w ≠ [])
    (hns : ∀ c ∈ w, isPySpace c = false) :
    ghdate_to_datetime ⟨w⟩ = strptime ⟨w⟩ GITHUB_DATE_FORMAT := by
  unfold ghdate_to_datetime
  rw [toList_mk]
  obtain ⟨z, hz, hzm⟩ := exists_getLast?_of_ne_nil hw
  obtain ⟨c, t, rfl⟩ : ∃ c t, w = c :: t := by
    cases w with
    | nil => exact absurd rfl hw
    | cons c t => exact ⟨c, t, rfl⟩
  rw [pyStrip_eq_self List.head?_cons (hns c (by simp)) hz (hns z hzm)]
  rw [pySplit_single hw hns]
  rfl

theorem commitDateChars_nonspace_Z {dt : DateTime} (hv : dt.Valid) :
    ∀ c ∈ commitDateChars dt ++ ['Z'], isPySpace c = false := by
  intro c hc
  rcases List.mem_append.mp hc with hc | hc
  · exact commitDateChars_nonspace hv c hc
  · simp only [List.mem_singleton] at hc
    subst hc
    decide

/-- C4: for every valid github wire text (canonical `%Y/%m/%d %H:%M:%S`, one
space, a sign and four digits of offset), `format(parse(text))` equals the
date-and-time part of `text` followed by one space and the constant offset
`-0700`; the original offset is dropped, so the round trip does not preserve
a text with any other offset token. -/
theorem github_roundtrip_replaces_offset (dt : DateTime) (hv : dt.Valid)
    (hy : 1000 ≤ dt.year) (off : List Char) (hlen : off.length = 5)
    (hsign : off.head? = some '+' ∨ off.head? = some '-')
    (hdig : ∀ c ∈ off.tail, c.isDigit = true) :
    (ghdate_to_datetime (strftime dt GITHUB_DATE_FORMAT ++ " " ++ ⟨off⟩)).map datetime_to_ghdate
        = some (strftime dt GITHUB_DATE_FORMAT ++ " " ++ GITHUB_TIMEZONE)
    ∧ ((⟨off⟩ : String) ≠ GITHUB_TIMEZONE →
        (ghdate_to_datetime (strftime dt GITHUB_DATE_FORMAT ++ " " ++ ⟨off⟩)).map datetime_to_ghdate
          ≠ some (strftime dt GITHUB_DATE_FORMAT ++ " " ++ ⟨off⟩)) := by
  have hoffne : off ≠ [] := by
    intro h
    rw [h] at hlen
    simp at hlen
  have hns : ∀ c ∈ off, isPySpace c = false := by
    intro c hc
    cases off with
    | nil => exact absurd rfl hoffne
    | cons o t =>
      rcases List.mem_cons.mp hc with rfl | hct
      · rcases hsign with h | h <;>
          (simp only [List.head?_cons, Option.some.injEq] at h; subst h; decide)
      · exact isPySpace_of_isDigit (hdig c hct)
  have hfmt : strftime dt GITHUB_DATE_FORMAT = ⟨ghDateChars dt⟩ := by
    unfold strftime
    rw [if_pos rfl]
  have hinput : strftime dt GITHUB_DATE_FORMAT ++ " " ++ (⟨off⟩ : String) =
      ⟨ghDateChars dt ++ (' ' :: off)⟩ := by
    rw [hfmt]
    show (⟨(ghDateChars dt ++ [' ']) ++ off⟩ : String) = ⟨ghDateChars dt ++ (' ' :: off)⟩
    rw [List.append_assoc]
    rfl
  have hmain : (ghdate_to_datetime (strftime dt GITHUB_DATE_FORMAT ++ " " ++ ⟨off⟩)).map
      datetime_to_ghdate = some (strftime dt GITHUB_DATE_FORMAT ++ " " ++ GITHUB_TIMEZONE) := by
    rw [hinput, ghdate_to_datetime_render hv hoffne hns]
    simp only [Option.map_some']
    rfl
  refine ⟨hmain, fun hne heq => ?_⟩
  rw [hmain] at heq
  have hstr : strftime dt GITHUB_DATE_FORMAT ++ " " ++ GITHUB_TIMEZONE =
      strftime dt GITHUB_DATE_FORMAT ++ " " ++ (⟨off⟩ : String) := Option.some.inj heq
  rw [hfmt] at hstr
  have hlists : (ghDateChars dt ++ [' ']) ++ GITHUB_TIMEZONE.data =
      (ghDateChars dt ++ [' ']) ++ off := congrArg String.data hstr
  have : GITHUB_TIMEZONE.data = off := by
    exact List.append_cancel_left hlists
  exact hne (by rw [← this])

/-- C4 witness: a concrete github text whose `+0200` offset is replaced by
the constant `-0700` on the round trip. -/
theorem github_roundtrip_replaces_offset_witness :
    (ghdate_to_datetime "2012/03/04 05:06:07 +0200").map datetime_to_ghdate
        = some "2012/03/04 05:06:07 -0700" := by
  have h := (github_roundtrip_replaces_offset ⟨2012, 3, 4, 5, 6, 7⟩ (by decide) (by decide)
    ['+', '0', '2', '0', '0'] (by decide) (Or.inl rfl) (by decide)).1
  exact h

/-- C5: the user format accepts both grammars, yielding the same timestamp,
and rejects a non-date text. -/
theorem userdate_accepts_both_grammars :
    userdate_to_datetime "2012/01/01 00:00:00 -0700" = some ⟨2012, 1, 1, 0, 0, 0⟩
    ∧ userdate_to_datetime "2012-01-01T00:00:00Z" = some ⟨2012, 1, 1, 0, 0, 0⟩
    ∧ userdate_to_datetime "not-a-date" = Option.none := by
  exact ⟨by decide, by decide, rfl⟩

/-- C1 counterexample: the round trip is not text-preserving for the user
format (an ISO-Z user text comes back in github form) nor for the commit
format (an offset other than `-07:00` is replaced by the constant). -/
theorem commit_user_iso_roundtrip_refuted :
    (userdate_to_datetime "2012-01-01T00:00:00Z").map datetime_to_ghdate
        = some "2012/01/01 00:00:00 -0700"
    ∧ ("2012/01/01 00:00:00 -0700" : String) ≠ "2012-01-01T00:00:00Z"
    ∧ (commitdate_to_datetime "2012-01-01T00:00:00+02:00").map datetime_to_commitdate
        = some "2012-01-01T00:00:00-07:00"
    ∧ ("2012-01-01T00:00:00-07:00" : String) ≠ "2012-01-01T00:00:00+02:00" := by
  exact ⟨by decide, by decide, by decide, by decide⟩

/-- C1 amended: the iso format round-trips every valid wire text; the commit
format replaces the trailing six-character offset token with the constant
`-07:00` (so its round trip preserves exactly the texts whose offset is
`-07:00`); the user format round-trips github-grammar texts with offset
`-0700`, while an ISO-Z user text is re-formatted into the github form, which
differs from it. -/
theorem commit_user_iso_roundtrip_amended (dt : DateTime) (hv : dt.Valid)
    (hy : 1000 ≤ dt.year) (off : String) (hoff : off.length = 6) :
    (isodate_to_datetime (datetime_to_isodate dt)).map datetime_to_isodate
        = some (datetime_to_isodate dt)
    ∧ (commitdate_to_datetime (strftime dt COMMIT_DATE_FORMAT ++ off)).map datetime_to_commitdate
        = some (strftime dt COMMIT_DATE_FORMAT ++ COMMIT_TIMEZONE)
    ∧ (userdate_to_datetime (datetime_to_ghdate dt)).map datetime_to_ghdate
        = some (datetime_to_ghdate dt)
    ∧ (userdate_to_datetime (datetime_to_isodate dt)).map datetime_to_ghdate
        = some (datetime_to_ghdate dt)
    ∧ datetime_to_ghdate dt ≠ datetime_to_isodate dt := by
  have hcfmt : strftime dt COMMIT_DATE_FORMAT = ⟨commitDateChars dt⟩ := by
    unfold strftime
    rw [if_neg (by decide), if_pos rfl]
  have hgfmt : strftime dt GITHUB_DATE_FORMAT = ⟨ghDateChars dt⟩ := by
    unfold strftime
    rw [if_pos rfl]
  have hiso : datetime_to_isodate dt = ⟨commitDateChars dt ++ ['Z']⟩ := rfl
  have hgh : datetime_to_ghdate dt = ⟨ghDateChars dt ++ (' ' :: GITHUB_TIMEZONE.data)⟩ := by
    unfold datetime_to_ghdate
    rw [hgfmt]
    show (⟨(ghDateChars dt ++ [' ']) ++ GITHUB_TIMEZONE.data⟩ : String) = _
    rw [List.append_assoc]
    rfl
  refine ⟨?_, ?_, ?_, ?_, ?_⟩
  · rw [hiso]
    unfold isodate_to_datetime
    rw [toList_mk]
    have hlen : (commitDateChars dt ++ ['Z']).length - 1 = (commitDateChars dt).length := by
      simp
    rw [hlen, List.take_left, strptime_commitDateChars hv]
    simp only [Option.map_some']
    rw [hiso]
  · have hin : strftime dt COMMIT_DATE_FORMAT ++ off = ⟨commitDateChars dt ++ off.data⟩ := by
      rw [hcfmt]
      cases off
      rfl
    rw [hin]
    unfold commitdate_to_datetime
    rw [toList_mk]
    have hlen6 : (commitDateChars dt ++ off.data).length - 6 = (commitDateChars dt).length := by
      have : off.data.length = 6 := hoff
      simp [this]
    rw [hlen6, List.take_left, strptime_commitDateChars hv]
    simp only [Option.map_some']
    unfold datetime_to_commitdate
    rfl
  · rw [hgh]
    unfold userdate_to_datetime
    rw [ghdate_to_datetime_render hv (by simp [GITHUB_TIMEZONE]) (by intro c hc; revert c; decide)]
    simp only [Option.map_some']
    rw [hgh]
  · rw [hiso]
    unfold userdate_to_datetime
    rw [ghdate_to_datetime_single (by simp) (commitDateChars_nonspace_Z hv)]
    have hnone : strptime ⟨commitDateChars dt ++ ['Z']⟩ GITHUB_DATE_FORMAT = Option.none :=
      strptime_gh_on_commitChars hv.2.1 ['Z']
    rw [hnone, strptime_isoZ_chars hv]
    rfl
  · intro h
    rw [hgh, hiso] at h
    have hl : ghDateChars dt ++ (' ' :: GITHUB_TIMEZONE.data) = commitDateChars dt ++ ['Z'] :=
      congrArg String.data h
    simp only [ghDateChars, ghDayChars, commitDateChars, List.append_assoc, List.cons_append] at hl
    have := (List.append_inj hl rfl).2
    simp at this

/-- C1 amended witness: the amended statement at a concrete datetime and a
concrete `+02:00` commit offset. -/
theorem commit_user_iso_roundtrip_amended_witness :
    (userdate_to_datetime "2012-01-01T00:00:00Z").map datetime_to_ghdate
        = some "2012/01/01 00:00:00 -0700"
    ∧ (commitdate_to_datetime "2012-01-01T00:00:00+02:00").map datetime_to_commitdate
        = some "2012-01-01T00:00:00-07:00"
    ∧ (isodate_to_datetime "2012-01-01T00:00:00Z").map datetime_to_isodate
        = some "2012-01-01T00:00:00Z" := by
  have h := commit_user_iso_roundtrip_amended ⟨2012, 1, 1, 0, 0, 0⟩ (by decide) (by decide)
    "+02:00" (by decide)
  exact ⟨h.2.2.2.1, h.2.1, h.1⟩

/-! ### Dispatcher: verb selection and result shaping -/

theorem isEmpty_false_of_ne_nil {α : Type} {l : List α} (h : l ≠ []) : l.isEmpty = false := by
  cases l with
  | nil => exact absurd rfl h
  | cons a t => rfl

/-- C2: the exact verb-selection precedence of `make_request`, for an
arbitrary transport: POST or GET (case-insensitive) with non-empty post data
issues the transport post with the resource path, positional arguments and
post-data fields; otherwise PUT issues put with the same argument shape,
DELETE issues delete, and every remaining case issues get with the path and
positional arguments only.  In particular GET and POST with the same
non-empty post data issue identical transport calls. -/
theorem make_request_verb_selection (req : Request) (domain command : String)
    (args : List Value) (pd : List (String × Value)) (filter : Option String)
    (method : String) :
    (((pyUpper method = "POST" ∨ pyUpper method = "GET") ∧ pd ≠ []) →
      GithubCommand.make_request ⟨req, domain⟩ command args ⟨Option.none, some pd, some method⟩
        = Except.ok (req.post domain command args pd))
    ∧ (pyUpper method = "PUT" →
      GithubCommand.make_request ⟨req, domain⟩ command args ⟨Option.none, some pd, some method⟩
        = Except.ok (req.put domain command args pd))
    ∧ (pyUpper method = "DELETE" →
      GithubCommand.make_request ⟨req, domain⟩ command args ⟨Option.none, some pd, some method⟩
        = Except.ok (req.delete domain command args pd))
    ∧ ((¬ ((pyUpper method = "POST" ∨ pyUpper method = "GET") ∧ pd ≠ [])) →
        pyUpper method ≠ "PUT" → pyUpper method ≠ "DELETE" →
      GithubCommand.make_request ⟨req, domain⟩ command args ⟨Option.none, some pd, some method⟩
        = Except.ok (req.get domain command args))
    ∧ (pd ≠ [] →
      GithubCommand.make_request ⟨req, domain⟩ command args ⟨filter, some pd, some "GET"⟩
        = GithubCommand.make_request ⟨req, domain⟩ command args ⟨filter, some pd, some "POST"⟩) := by
  refine ⟨fun hcond => ?_, fun hput => ?_, fun hdel => ?_, fun hnc hnp hnd => ?_, fun hpd => ?_⟩
  · obtain ⟨hm, hpd⟩ := hcond
    simp only [GithubCommand.make_request, Option.getD_some]
    rw [if_pos ⟨hm, isEmpty_false_of_ne_nil hpd⟩]
  · have hnc : ¬ ((pyUpper method = "POST" ∨ pyUpper method = "GET")
        ∧ pd.isEmpty = false) := by
      rintro ⟨h1 | h1, -⟩ <;> rw [hput] at h1 <;> exact absurd h1 (by decide)
    simp only [GithubCommand.make_request, Option.getD_some]
    rw [if_neg hnc, if_pos hput]
  · have hnc : ¬ ((pyUpper method = "POST" ∨ pyUpper method = "GET")
        ∧ pd.isEmpty = false) := by
      rintro ⟨h1 | h1, -⟩ <;> rw [hdel] at h1 <;> exact absurd h1 (by decide)
    have hnp : pyUpper method ≠ "PUT" := by
      rw [hdel]; decide
    simp only [GithubCommand.make_request, Option.getD_some]
    rw [if_neg hnc, if_neg hnp, if_pos hdel]
  · have hnc' : ¬ ((pyUpper method = "POST" ∨ pyUpper method = "GET")
        ∧ pd.isEmpty = false) := by
      rintro ⟨h1, h2⟩
      refine hnc ⟨h1, ?_⟩
      intro hn
      rw [hn] at h2
      exact absurd h2 (by decide)
    simp only [GithubCommand.make_request, Option.getD_some]
    rw [if_neg hnc', if_neg hnp, if_neg hnd]
  · have hpe : pd.isEmpty = false := isEmpty_false_of_ne_nil hpd
    simp only [GithubCommand.make_request, Option.getD_some]
    rw [if_pos ⟨Or.inr rfl, hpe⟩, if_pos ⟨Or.inl rfl, hpe⟩]

/-- C2 witness: with the recording transport, a lower-case `get` with
non-empty post data issues the same call as `POST`, and `Put` issues a PUT
with the post-data fields. -/
theorem make_request_verb_selection_witness :
    GithubCommand.make_request ⟨recordingRequest, "repos"⟩ "show" [Value.str "u"]
        ⟨Option.none, some [("login", Value.str "x")], some "GET"⟩
      = GithubCommand.make_request ⟨recordingRequest, "repos"⟩ "show" [Value.str "u"]
        ⟨Option.none, some [("login", Value.str "x")], some "POST"⟩
    ∧ GithubCommand.make_request ⟨recordingRequest, "repos"⟩ "show" [Value.str "u"]
        ⟨Option.none, some [("login", Value.str "x")], some "Put"⟩
      = Except.ok (recordingRequest.put "repos" "show" [Value.str "u"]
          [("login", Value.str "x")]) := by
  constructor
  · exact (make_request_verb_selection recordingRequest "repos" "show" [Value.str "u"]
      [("login", Value.str "x")] Option.none "GET").2.2.2.2 (by simp)
  · exact (make_request_verb_selection recordingRequest "repos" "show" [Value.str "u"]
      [("login", Value.str "x")] Option.none "Put").2.1 (by decide)

/-- C8 counterexample: the filter test is Python truthiness, so a supplied
empty-string filter key is ignored: the raw dict is returned even though
indexing it by the supplied key would give a different value. -/
theorem filter_empty_string_counterexample :
    GithubCommand.make_request ⟨constRequest (Value.dict [("", Value.int 5)]), "d"⟩ "c" []
        ⟨some "", Option.none, Option.none⟩
      = Except.ok (Value.dict [("", Value.int 5)])
    ∧ getitem (Value.dict [("", Value.int 5)]) "" = Except.ok (Value.int 5)
    ∧ GithubCommand.make_request ⟨constRequest (Value.dict [("", Value.int 5)]), "d"⟩ "c" []
        ⟨some "", Option.none, Option.none⟩
      ≠ Except.ok (Value.int 5) := by
  have hmain : GithubCommand.make_request ⟨constRequest (Value.dict [("", Value.int 5)]), "d"⟩
      "c" [] ⟨some "", Option.none, Option.none⟩
      = Except.ok (Value.dict [("", Value.int 5)]) := rfl
  refine ⟨hmain, rfl, fun h => ?_⟩
  rw [hmain] at h
  exact Value.noConfusion (Except.ok.inj h)

/-- C8 amended: a supplied non-empty filter key indexes the raw transport
result (an absent key fails with a propagating KeyError); a missing filter,
or the empty-string filter (which Python truthiness treats as absent),
returns the raw result unchanged. -/
theorem make_request_filter_shaping (domain command : String) (args : List Value)
    (es : List (String × Value)) (f : String) (x : Value) :
    (f ≠ "" → lookup f es = some x →
      GithubCommand.make_request ⟨constRequest (Value.dict es), domain⟩ command args
        ⟨some f, Option.none, Option.none⟩ = Except.ok x)
    ∧ (f ≠ "" → lookup f es = Option.none →
      GithubCommand.make_request ⟨constRequest (Value.dict es), domain⟩ command args
        ⟨some f, Option.none, Option.none⟩ = Except.error (PyErr.keyError f))
    ∧ (GithubCommand.make_request ⟨constRequest (Value.dict es), domain⟩ command args
        ⟨Option.none, Option.none, Option.none⟩ = Except.ok (Value.dict es))
    ∧ (GithubCommand.make_request ⟨constRequest (Value.dict es), domain⟩ command args
        ⟨some "", Option.none, Option.none⟩ = Except.ok (Value.dict es)) := by
  refine ⟨fun hf hl => ?_, fun hf hl => ?_, rfl, rfl⟩
  · simp only [GithubCommand.make_request, Option.getD_none, Option.getD_some, constRequest]
    rw [if_neg hf, if_neg (by decide), if_neg (by decide), if_neg (by decide)]
    simp only [getitem]
    rw [hl]
  · simp only [GithubCommand.make_request, Option.getD_none, Option.getD_some, constRequest]
    rw [if_neg hf, if_neg (by decide), if_neg (by decide), if_neg (by decide)]
    simp only [getitem]
    rw [hl]

/-- C8 amended witness: a present key is extracted, an absent key gives a
KeyError, and the raw dict is returned without a filter. -/
theorem make_request_filter_shaping_witness :
    GithubCommand.make_request ⟨constRequest (Value.dict [("items", Value.int 3)]), "d"⟩ "c" []
        ⟨some "items", Option.none, Option.none⟩ = Except.ok (Value.int 3)
    ∧ GithubCommand.make_request ⟨constRequest (Value.dict [("items", Value.int 3)]), "d"⟩ "c" []
        ⟨some "users", Option.none, Option.none⟩ = Except.error (PyErr.keyError "users")
    ∧ GithubCommand.make_request ⟨constRequest (Value.dict [("items", Value.int 3)]), "d"⟩ "c" []
        ⟨Option.none, Option.none, Option.none⟩ = Except.ok (Value.dict [("items", Value.int 3)]) := by
  refine ⟨?_, ?_, ?_⟩
  · exact (make_request_filter_shaping "d" "c" [] [("items", Value.int 3)] "items"
      (Value.int 3)).1 (by decide) rfl
  · exact (make_request_filter_shaping "d" "c" [] [("items", Value.int 3)] "users"
      (Value.int 3)).2.1 (by decide) rfl
  · exact (make_request_filter_shaping "d" "c" [] [("items", Value.int 3)] "users"
      (Value.int 3)).2.2.1

/-! ### Auth guard -/

/-- C3: with no truthy token on the held session the guard fails with
`AuthError` embedding the wrapped operation's name, and the result does not
depend on the wrapped function (it is never invoked, so nothing reaches the
transport); with either token set it invokes the wrapped operation and
returns its result unchanged. -/
theorem requires_auth_guard (op : Operation) (self : GithubCommand) (args : List Value) :
    (self.request.access_token = Token.none → self.request.api_token = Token.none →
      requires_auth op self args
          = Except.error (pyRepr op.name ++ " requires an authenticated session")
        ∧ ∀ g : GithubCommand → List Value → Value,
            requires_auth ⟨op.name, g⟩ self args = requires_auth op self args)
    ∧ (pyTruthy self.request.access_token = true ∨ pyTruthy self.request.api_token = true →
      requires_auth op self args = Except.ok (op.fn self args)) := by
  constructor
  · intro ha hb
    have hcond : pyTruthy self.request.access_token = false
        ∧ pyTruthy self.request.api_token = false := by
      rw [ha, hb]
      exact ⟨rfl, rfl⟩
    constructor
    · unfold requires_auth
      rw [if_pos hcond]
    · intro g
      unfold requires_auth
      rw [if_pos hcond, if_pos hcond]
  · intro h
    have hcond : ¬ (pyTruthy self.request.access_token = false
        ∧ pyTruthy self.request.api_token = false) := by
      rintro ⟨h1, h2⟩
      rcases h with h | h
      · rw [h] at h1; cases h1
      · rw [h] at h2; cases h2
    unfold requires_auth
    rw [if_neg hcond]

/-- C3 witness: a concrete guarded operation fails without tokens and
delegates once an access token is set. -/
theorem requires_auth_guard_witness :
    requires_auth ⟨"repos", fun _ _ => Value.int 7⟩ ⟨authRequest Token.none Token.none, "d"⟩ []
        = Except.error (pyRepr "repos" ++ " requires an authenticated session")
    ∧ requires_auth ⟨"repos", fun _ _ => Value.int 7⟩
        ⟨authRequest (Token.str "token") Token.none, "d"⟩ []
        = Except.ok (Value.int 7) := by
  constructor
  · exact ((requires_auth_guard ⟨"repos", fun _ _ => Value.int 7⟩
      ⟨authRequest Token.none Token.none, "d"⟩ []).1 rfl rfl).1
  · exact (requires_auth_guard ⟨"repos", fun _ _ => Value.int 7⟩
      ⟨authRequest (Token.str "token") Token.none, "d"⟩ []).2 (Or.inl (by decide))

/-- C10: the guard's credential check is a truthiness test, not an
attribute-presence test: token attributes holding falsy values (the empty
string, or None) still raise AuthError, while any non-empty token string in
either attribute lets the call proceed. -/
theorem requires_auth_truthiness (op : Operation) (self : GithubCommand) (args : List Value) :
    ((self.request.access_token = Token.str "" ∨ self.request.access_token = Token.none) →
     (self.request.api_token = Token.str "" ∨ self.request.api_token = Token.none) →
      requires_auth op self args
        = Except.error (pyRepr op.name ++ " requires an authenticated session"))
    ∧ (∀ s : String, s ≠ "" →
        (self.request.access_token = Token.str s ∨ self.request.api_token = Token.str s) →
        requires_auth op self args = Except.ok (op.fn self args)) := by
  constructor
  · intro ha hb
    have h1 : pyTruthy self.request.access_token = false := by
      rcases ha with h | h <;> rw [h] <;> rfl
    have h2 : pyTruthy self.request.api_token = false := by
      rcases hb with h | h <;> rw [h] <;> rfl
    unfold requires_auth
    rw [if_pos ⟨h1, h2⟩]
  · intro s hs h
    have hcond : ¬ (pyTruthy self.request.access_token = false
        ∧ pyTruthy self.request.api_token = false) := by
      rintro ⟨h1, h2⟩
      rcases h with h | h
      · rw [h] at h1
        simp [pyTruthy, hs] at h1
      · rw [h] at h2
        simp [pyTruthy, hs] at h2
    unfold requires_auth
    rw [if_neg hcond]

/-- C10 witness: both token attributes present but holding empty strings
still fail; a non-empty api token proceeds. -/
theorem requires_auth_truthiness_witness :
    requires_auth ⟨"issues", fun _ _ => Value.int 9⟩
        ⟨authRequest (Token.str "") (Token.str ""), "d"⟩ []
        = Except.error (pyRepr "issues" ++ " requires an authenticated session")
    ∧ requires_auth ⟨"issues", fun _ _ => Value.int 9⟩
        ⟨authRequest (Token.str "") (Token.str "k"), "d"⟩ []
        = Except.ok (Value.int 9) := by
  constructor
  · exact (requires_auth_truthiness ⟨"issues", fun _ _ => Value.int 9⟩
      ⟨authRequest (Token.str "") (Token.str ""), "d"⟩ []).1 (Or.inl rfl) (Or.inl rfl)
  · exact (requires_auth_truthiness ⟨"issues", fun _ _ => Value.int 9⟩
      ⟨authRequest (Token.str "") (Token.str "k"), "d"⟩ []).2 "k" (by decide) (Or.inr rfl)

/-! ### Records: construction and enumeration -/

theorem lookup_setattr_self (rec : List (String × Value)) (name : String) (v : Value) :
    lookup name (setattr rec name v) = some v := by
  induction rec with
  | nil => simp [setattr, lookup]
  | cons e rec ih =>
    obtain ⟨k, x⟩ := e
    by_cases hk : k = name
    · subst hk
      simp [setattr, lookup]
    · simp [setattr, lookup, hk, ih]

theorem lookup_setattr_other {k name : String} (h : name ≠ k)
    (rec : List (String × Value)) (v : Value) :
    lookup k (setattr rec name v) = lookup k rec := by
  induction rec with
  | nil => simp [setattr, lookup, h]
  | cons e rec ih =>
    obtain ⟨k', x⟩ := e
    by_cases hk : k' = name
    · subst hk
      simp [setattr, lookup, h]
    · simp [setattr, lookup, hk, ih]

theorem mem_setattr {rec : List (String × Value)} {name k : String} {v x : Value}
    (h : (k, x) ∈ setattr rec name v) : k = name ∨ (k, x) ∈ rec := by
  induction rec with
  | nil =>
    simp only [setattr, List.mem_singleton, Prod.mk.injEq] at h
    exact Or.inl h.1
  | cons e rec ih =>
    obtain ⟨k', y⟩ := e
    by_cases hk : k' = name
    · subst hk
      simp only [setattr, if_pos rfl] at h
      rcases List.mem_cons.mp h with heq | hmem
      · injection heq with h1 h2
        exact Or.inl h1
      · exact Or.inr (List.mem_cons_of_mem _ hmem)
    · simp only [setattr, if_neg hk] at h
      rcases List.mem_cons.mp h with heq | hmem
      · exact Or.inr (List.mem_cons.mpr (Or.inl heq))
      · rcases ih hmem with h' | h'
        · exact Or.inl h'
        · exact Or.inr (List.mem_cons_of_mem _ h')

/-- Every key of a constructed record comes from the keyword arguments or
from the initial instance dict. -/
theorem constructor_key_mem {meta : List (String × Attr)} :
    ∀ {kwargs : List (String × Value)} {rec0 rec : List (String × Value)},
      constructor meta kwargs rec0 = some rec →
      ∀ {k : String} {x : Value}, (k, x) ∈ rec →
        k ∈ kwargs.map Prod.fst ∨ ∃ y, (k, y) ∈ rec0 := by
  intro kwargs
  induction kwargs with
  | nil =>
    intro rec0 rec h k x hm
    simp only [constructor, Option.some.injEq] at h
    subst h
    exact Or.inr ⟨x, hm⟩
  | cons e rest ih =>
    obtain ⟨name, val⟩ := e
    intro rec0 rec h k x hm
    cases hl : lookup name meta with
    | some attr =>
      cases hp : attr.to_python val with
      | some v' =>
        simp only [constructor, hl, hp] at h
        rcases ih h hm with hk | ⟨y, hy⟩
        · exact Or.inl (List.mem_cons_of_mem _ hk)
        · rcases mem_setattr hy with rfl | hy'
          · exact Or.inl (List.mem_cons.mpr (Or.inl rfl))
          · exact Or.inr ⟨y, hy'⟩
      | none =>
        simp only [constructor, hl, hp] at h
        exact Option.noConfusion h
    | none =>
      simp only [constructor, hl] at h
      rcases ih h hm with hk | ⟨y, hy⟩
      · exact Or.inl (List.mem_cons_of_mem _ hk)
      · rcases mem_setattr hy with rfl | hy'
        · exact Or.inl (List.mem_cons.mpr (Or.inl rfl))
        · exact Or.inr ⟨y, hy'⟩

/-- A constructed record binds a key no keyword argument mentions exactly as
the initial instance dict does. -/
theorem constructor_lookup_skip {meta : List (String × Attr)} {k : String} :
    ∀ {kwargs : List (String × Value)} {rec0 rec : List (String × Value)},
      constructor meta kwargs rec0 = some rec →
      (∀ w, (k, w) ∉ kwargs) →
      lookup k rec = lookup k rec0 := by
  intro kwargs
  induction kwargs with
  | nil =>
    intro rec0 rec h _
    simp only [constructor, Option.some.injEq] at h
    subst h
    rfl
  | cons e rest ih =>
    obtain ⟨name, val⟩ := e
    intro rec0 rec h hk
    have hne : name ≠ k := by
      rintro rfl
      exact hk val (List.mem_cons.mpr (Or.inl rfl))
    have hk' : ∀ w, (k, w) ∉ rest := fun w hw => hk w (List.mem_cons_of_mem _ hw)
    cases hl : lookup name meta with
    | some attr =>
      cases hp : attr.to_python val with
      | some v' =>
        simp only [constructor, hl, hp] at h
        rw [ih h hk', lookup_setattr_other hne]
      | none =>
        simp only [constructor, hl, hp] at h
        exact Option.noConfusion h
    | none =>
      simp only [constructor, hl] at h
      rw [ih h hk', lookup_setattr_other hne]

/-- What a constructed record binds each keyword-argument key to: the
`to_python` conversion of its value for a declared field, the raw value for
an undeclared one. -/
theorem constructor_lookup {meta : List (String × Attr)} :
    ∀ {kwargs : List (String × Value)} {rec0 rec : List (String × Value)},
      constructor meta kwargs rec0 = some rec →
      (kwargs.map Prod.fst).Nodup →
      ∀ {k : String} {v : Value}, (k, v) ∈ kwargs →
        lookup k rec = (match lookup k meta with
          | some attr => attr.to_python v
          | Option.none => some v) := by
  intro kwargs
  induction kwargs with
  | nil =>
    intro rec0 rec _ _ k v hm
    simp at hm
  | cons e rest ih =>
    obtain ⟨name, val⟩ := e
    intro rec0 rec h hnd k v hm
    have hnd' : (rest.map Prod.fst).Nodup := (List.nodup_cons.mp hnd).2
    rcases List.mem_cons.mp hm with heq | hmr
    · injection heq with h1 h2
      subst h1
      subst h2
      have hrest : ∀ w, (k, w) ∉ rest := by
        intro w hw
        exact (List.nodup_cons.mp hnd).1 (List.mem_map.mpr ⟨(k, w), hw, rfl⟩)
      cases hl : lookup k meta with
      | some attr =>
        cases hp : attr.to_python v with
        | some v' =>
          simp only [constructor, hl, hp] at h
          rw [constructor_lookup_skip h hrest, lookup_setattr_self]
          exact hp.symm
        | none =>
          simp only [constructor, hl, hp] at h
          exact Option.noConfusion h
      | none =>
        simp only [constructor, hl] at h
        rw [constructor_lookup_skip h hrest, lookup_setattr_self]
    · cases hl : lookup name meta with
      | some attr =>
        cases hp : attr.to_python val with
        | some v' =>
          simp only [constructor, hl, hp] at h
          exact ih h hnd' hmr
        | none =>
          simp only [constructor, hl, hp] at h
          exact Option.noConfusion h
      | none =>
        simp only [constructor, hl] at h
        exact ih h hnd' hmr

/-- C6: enumerating a record yields exactly the assigned fields whose current
value is not the absent marker `None`, each with its current value; in
particular a freshly constructed record with a field left out of the
construction mapping does not contain that field. -/
theorem iterate_assigned_non_none (meta : List (String × Attr))
    (kwargs : List (String × Value)) (rec : List (String × Value))
    (hc : constructor meta kwargs [] = some rec) (name : String) (v : Value) :
    ((name, v) ∈ iterate rec ↔ (name, v) ∈ rec ∧ v ≠ Value.none)
    ∧ ((∀ w, (name, w) ∉ kwargs) → (name, v) ∉ iterate rec) := by
  constructor
  · unfold iterate
    rw [List.mem_filter]
    constructor
    · rintro ⟨h1, h2⟩
      refine ⟨h1, ?_⟩
      rintro rfl
      simp at h2
    · rintro ⟨h1, h2⟩
      refine ⟨h1, ?_⟩
      cases v
      · exact absurd rfl h2
      all_goals rfl
  · intro hnone hmem
    have hmem' : (name, v) ∈ rec := (List.mem_filter.mp hmem).1
    rcases constructor_key_mem hc hmem' with hk | ⟨y, hy⟩
    · obtain ⟨⟨k', w⟩, hmem2, hfst⟩ := List.mem_map.mp hk
      cases hfst
      exact hnone w hmem2
    · simp at hy

/-- C6 witness: a record constructed with only an undeclared `id` field does
not enumerate the declared-but-unset `created_at` field. -/
theorem iterate_assigned_non_none_witness :
    (("created_at", Value.int 1) ∈ iterate [("id", Value.int 1)] ↔
      ("created_at", Value.int 1) ∈ [("id", Value.int 1)] ∧ Value.int 1 ≠ Value.none)
    ∧ ((∀ w, ("created_at", w) ∉ [("id", Value.int 1)]) →
      ("created_at", Value.int 1) ∉ iterate [("id", Value.int 1)]) :=
  iterate_assigned_non_none [("created_at", Attr.DateAttribute "date" "github")]
    [("id", Value.int 1)] [("id", Value.int 1)] rfl "created_at" (Value.int 1)

/-- C7: each construction entry naming a schema-declared field is stored as
its descriptor's `to_python` conversion of the given value; an entry with an
undeclared key is stored verbatim. -/
theorem constructor_stores_converted (meta : List (String × Attr))
    (kwargs rec : List (String × Value)) (hnd : (kwargs.map Prod.fst).Nodup)
    (hc : constructor meta kwargs [] = some rec) (k : String) (v : Value)
    (hm : (k, v) ∈ kwargs) :
    lookup k rec = (match lookup k meta with
      | some attr => attr.to_python v
      | Option.none => some v) :=
  constructor_lookup hc hnd hm

/-- C7 witness: a date-typed declared field given wire text stores the parsed
native timestamp, and an undeclared field stores its raw value verbatim. -/
theorem constructor_stores_converted_witness :
    lookup "created_at" [("created_at", Value.dt ⟨2012, 1, 1, 0, 0, 0⟩), ("id", Value.str "x")]
        = some (Value.dt ⟨2012, 1, 1, 0, 0, 0⟩)
    ∧ lookup "id" [("created_at", Value.dt ⟨2012, 1, 1, 0, 0, 0⟩), ("id", Value.str "x")]
        = some (Value.str "x") := by
  have h1 := constructor_stores_converted [("created_at", Attr.DateAttribute "date" "github")]
    [("created_at", Value.str "2012/01/01 00:00:00 -0700"), ("id", Value.str "x")]
    [("created_at", Value.dt ⟨2012, 1, 1, 0, 0, 0⟩), ("id", Value.str "x")]
    (by decide) rfl "created_at" (Value.str "2012/01/01 00:00:00 -0700") (List.Mem.head _)
  have h2 := constructor_stores_converted [("created_at", Attr.DateAttribute "date" "github")]
    [("created_at", Value.str "2012/01/01 00:00:00 -0700"), ("id", Value.str "x")]
    [("created_at", Value.dt ⟨2012, 1, 1, 0, 0, 0⟩), ("id", Value.str "x")]
    (by decide) rfl "id" (Value.str "x") (List.Mem.tail _ (List.Mem.head _))
  exact ⟨h1.trans rfl, h2.trans rfl⟩

/-! ### Descriptor conversions -/

/-- A successful `to_python` result re-converts to itself: the output is the
input unchanged (falsy, or already a datetime) or a freshly parsed datetime,
and the guard passes all of these through. -/
theorem to_python_stable {a : Attr} {v w : Value} (h : a.to_python v = some w) :
    a.to_python w = some w := by
  cases a with
  | Attribute help =>
    cases h
    rfl
  | DateAttribute help fmt =>
    simp only [Attr.to_python] at h ⊢
    by_cases hcond : pyTruthyV v = true ∧ v.isDatetime = false
    · rw [if_pos hcond] at h
      cases v with
      | str s =>
        cases hcf : converter_for_format fmt with
        | some conv =>
          simp only [hcf] at h
          cases hps : conv.fst s with
          | some d =>
            simp only [hps, Option.map_some', Option.some.injEq] at h
            subst h
            rw [if_neg]
            rintro ⟨-, h2⟩
            cases h2
          | none =>
            simp only [hps, Option.map_none'] at h
            exact Option.noConfusion h
        | none =>
          simp only [hcf] at h
          exact Option.noConfusion h
      | none => exact absurd hcond.1 (by decide)
      | int n =>
        cases hcf : converter_for_format fmt with
        | some conv => simp only [hcf] at h; exact Option.noConfusion h
        | none => simp only [hcf] at h; exact Option.noConfusion h
      | dt d => exact absurd hcond.2 (by simp [Value.isDatetime])
      | dict es =>
        cases hcf : converter_for_format fmt with
        | some conv => simp only [hcf] at h; exact Option.noConfusion h
        | none => simp only [hcf] at h; exact Option.noConfusion h
      | arr xs =>
        cases hcf : converter_for_format fmt with
        | some conv => simp only [hcf] at h; exact Option.noConfusion h
        | none => simp only [hcf] at h; exact Option.noConfusion h
    · rw [if_neg hcond] at h
      cases h
      rw [if_neg hcond]

/-- C9: the date descriptor's conversions are guarded to be idempotent:
`to_python` maps an already-native (or absent/falsy) value to itself, so
applying it twice equals applying it once on every input; symmetrically
`from_python` maps a non-native (or absent) value to itself.  The generic
descriptor's conversions are the identity, so the statement covers every
descriptor. -/
theorem date_conversions_idempotent (a : Attr) (v : Value) :
    ((a.to_python v).bind a.to_python = a.to_python v)
    ∧ (v.isDatetime = true ∨ pyTruthyV v = false → a.to_python v = some v)
    ∧ (v.isDatetime = false ∨ pyTruthyV v = false → a.from_python v = some v) := by
  refine ⟨?_, fun hv => ?_, fun hv => ?_⟩
  · cases hx : a.to_python v with
    | none => rfl
    | some w => simpa using to_python_stable hx
  · cases a with
    | Attribute help => rfl
    | DateAttribute help fmt =>
      simp only [Attr.to_python]
      rw [if_neg]
      rintro ⟨h1, h2⟩
      rcases hv with hd | ht
      · rw [hd] at h2
        cases h2
      · rw [ht] at h1
        cases h1
  · cases a with
    | Attribute help => rfl
    | DateAttribute help fmt =>
      simp only [Attr.from_python]
      rw [if_neg]
      rintro ⟨h1, h2⟩
      rcases hv with hd | ht
      · rw [hd] at h2
        cases h2
      · rw [ht] at h1
        cases h1

/-- C9 witness: on a github date descriptor, converting wire text twice
equals converting it once; a datetime and None pass through `to_python`
unchanged, and a non-datetime string passes through `from_python`
unchanged. -/
theorem date_conversions_idempotent_witness :
    ((Attr.DateAttribute "d" "github").to_python (Value.str "2012/01/01 00:00:00 -0700")).bind
        (Attr.DateAttribute "d" "github").to_python
      = (Attr.DateAttribute "d" "github").to_python (Value.str "2012/01/01 00:00:00 -0700")
    ∧ (Attr.DateAttribute "d" "github").to_python (Value.dt ⟨2012, 1, 1, 0, 0, 0⟩)
      = some (Value.dt ⟨2012, 1, 1, 0, 0, 0⟩)
    ∧ (Attr.DateAttribute "d" "github").to_python Value.none = some Value.none
    ∧ (Attr.DateAttribute "d" "github").from_python (Value.str "raw") = some (Value.str "raw") := by
  refine ⟨?_, ?_, ?_, ?_⟩
  · exact (date_conversions_idempotent (Attr.DateAttribute "d" "github")
      (Value.str "2012/01/01 00:00:00 -0700")).1
  · exact (date_conversions_idempotent (Attr.DateAttribute "d" "github")
      (Value.dt ⟨2012, 1, 1, 0, 0, 0⟩)).2.1 (Or.inl rfl)
  · exact (date_conversions_idempotent (Attr.DateAttribute "d" "github")
      Value.none).2.1 (Or.inr rfl)
  · exact (date_conversions_idempotent (Attr.DateAttribute "d" "github")
      (Value.str "raw")).2.2 (Or.inl rfl)

end Github2
